import Mathlib

/-!
Verification of the mail-merge batch-send engine in `src/app.py`.

The development shallowly embeds the pieces of `app.py` the claims are
about:

* `extract_email` and the regex literal `EMAIL_REGEX =
  re.compile(r"[\w\.-]+@[\w\.-]+\.\w+")` (lines 48-54), embedded as a
  greedy backtracking matcher that mirrors the Python `re` engine's
  search semantics (leftmost start position, greedy `+` with
  backtracking) specialised to this pattern.  `\w` is modelled as its
  ASCII meaning (letters, digits, underscore).
* the sending block (lines 311-462): column initialisation, the per-row
  send loop including mode handling, the `fetch_message_id_header`
  bounded retry, the pacing sleep, the per-row exception handler, and
  the single finalisation CSV save.  Provider calls, template rendering
  and sleeps are effects; they are modelled by a per-row environment
  (`RowEnv`) supplying each call's result, and by an event trace
  recording which external actions the code performs and in which
  order.
* the Run Lock of spec §4.2, which has no counterpart anywhere in
  `src/`; it is modelled from the spec (see `lockCreate`).
-/

namespace Mailmir

/-! ### The email pattern, `[\w\.-]+@[\w\.-]+\.\w+` -/

/-- `\w` (ASCII): letters, digits, underscore. -/
def wordChar (c : Char) : Bool :=
  c.isAlphanum || c = '_'

/-- The character class `[\w\.-]`: word characters, dots and hyphens. -/
def addrChar (c : Char) : Bool :=
  wordChar c || c = '.' || c = '-'

/-- Greedy consumption of zero or more characters satisfying `p` from
position `i`, trying the longest run first and backtracking into the
continuation `k`, exactly as the Python `re` engine treats a greedy `+`
tail.  `fuel` bounds the recursion; callers pass at least
`s.length`, which suffices since every step advances the position. -/
def manyGreedy (p : Char → Bool) (s : List Char) (k : Nat → Option Nat) :
    Nat → Nat → Option Nat
  | 0, i => k i
  | fuel + 1, i =>
    match s.get? i with
    | some c =>
      if p c then
        match manyGreedy p s k fuel (i + 1) with
        | some e => some e
        | none => k i
      else k i
    | none => k i

/-- `p+` (one or more, greedy, with backtracking): one mandatory
character satisfying `p`, then `manyGreedy`. -/
def plusGreedy (p : Char → Bool) (s : List Char) (k : Nat → Option Nat)
    (i : Nat) : Option Nat :=
  match s.get? i with
  | some c => if p c then manyGreedy p s k s.length (i + 1) else none
  | none => none

/-- A literal character in the pattern. -/
def litChar (c : Char) (s : List Char) (k : Nat → Option Nat)
    (i : Nat) : Option Nat :=
  match s.get? i with
  | some c2 => if c2 = c then k (i + 1) else none
  | none => none

/-- Match `[\w\.-]+@[\w\.-]+\.\w+` anchored at position `i` of `s`,
returning the end position of the (greedy, backtracking) match the
Python engine would produce at this start position. -/
def matchEmailAt (s : List Char) (i : Nat) : Option Nat :=
  plusGreedy addrChar s
    (litChar '@' s
      (plusGreedy addrChar s
        (litChar '.' s
          (plusGreedy wordChar s some))))
    i

/-- `re.search`: try every start position from the left; the first
position where the pattern matches wins. -/
def searchFrom (s : List Char) : Nat → Nat → Option (Nat × Nat)
  | 0, _ => none
  | fuel + 1, i =>
    match matchEmailAt s i with
    | some j => some (i, j)
    | none => searchFrom s fuel (i + 1)

/-- `EMAIL_REGEX.search(s)`: the leftmost match, as a pair of start and
end positions. -/
def searchEmail (s : List Char) : Option (Nat × Nat) :=
  searchFrom s (s.length + 1) 0

/-- The substring of `s` from position `i` (inclusive) to `j`
(exclusive), as `match.group(0)` returns it. -/
def sliceStr (s : List Char) (i j : Nat) : String :=
  String.mk ((s.drop i).take (j - i))

/-- `extract_email` (app.py lines 50-54).  `None` and the empty string
are falsy, so `if not value: return None` maps both to `none`;
otherwise the result is the leftmost regex match, or `none` when the
search fails. -/
def extract_email (value : Option String) : Option String :=
  match value with
  | none => none
  | some v =>
    if v = "" then none
    else
      match searchEmail v.toList with
      | some (i, j) => some (sliceStr v.toList i j)
      | none => none

/-- The email pattern as described by the claim, as a language over
character lists: one or more word chars / dots / hyphens, then `@`,
then one or more word chars / dots / hyphens, then a dot and a
nonempty word-character run.  Used to state what `extract_email`
returns, independently of the matcher embedding. -/
def emailShape (l : List Char) : Prop :=
  ∃ a b c : List Char,
    l = a ++ '@' :: (b ++ '.' :: c) ∧ a ≠ [] ∧ b ≠ [] ∧ c ≠ [] ∧
    (∀ x ∈ a, addrChar x = true) ∧ (∀ x ∈ b, addrChar x = true) ∧
    (∀ x ∈ c, wordChar x = true)

/-! ### The recipient table

`app.py` keeps the recipients in a pandas DataFrame.  A cell is either
a string or a missing value (`None` written by `df[col] = None`, or NaN
from an empty spreadsheet cell); both stringify to something the
linkage checks reject, so they are conflated as `Cell.na`.  A row is
its association list of column name to cell, a DataFrame a column list
plus a row list in upload order. -/

inductive Cell
  | na
  | str (v : String)
deriving DecidableEq

structure Row where
  cells : List (String × Cell)
deriving DecidableEq

structure DataFrame where
  cols : List String
  rows : List Row
deriving DecidableEq

/-- Look a column up in a row (first matching cell, as a pandas Series
label lookup on unique labels). -/
def getCell (r : Row) (name : String) : Option Cell :=
  (r.cells.find? (fun p => p.1 == name)).map (fun p => p.2)

/-- `df.loc[idx, name] = v`: overwrite the cell in place when the
column exists, append it otherwise. -/
def setCell (r : Row) (name : String) (v : Cell) : Row :=
  if (r.cells.find? (fun p => p.1 == name)).isSome then
    ⟨r.cells.map (fun p => if p.1 == name then (p.1, v) else p)⟩
  else
    ⟨r.cells ++ [(name, v)]⟩

/-- Python `str.strip()`: remove leading and trailing whitespace. -/
def pyStrip (s : String) : String :=
  String.mk (((s.toList.dropWhile Char.isWhitespace).reverse.dropWhile
    Char.isWhitespace).reverse)

/-- Python `str.lower()` (ASCII case folding). -/
def pyLower (s : String) : String :=
  String.mk (s.toList.map Char.toLower)

/-- `str(row.get(name, ""))`: a missing column stringifies the default
`""`; NaN stringifies to `"nan"` (`None` would give `"None"`, which the
email regex equally fails to match, so `Cell.na` uses the NaN form). -/
def cellGetStr (r : Row) (name : String) : String :=
  match getCell r name with
  | none => ""
  | some Cell.na => "nan"
  | some (Cell.str v) => v

/-- `str(row.get(name, "") or "").strip()` (app.py lines 366-367): a
falsy cell (`None`, `""`) yields `""`; NaN is truthy and stringifies to
`"nan"`, which the explicit `.lower() != "nan"` filter then rejects. -/
def linkStr (r : Row) (name : String) : String :=
  match getCell r name with
  | none => ""
  | some Cell.na => "nan"
  | some (Cell.str v) => pyStrip v

/-- The follow-up linkage test of app.py line 368: both `ThreadId` and
`RfcMessageId` nonblank and not the string `"nan"`. -/
def hasLinkage (r : Row) : Bool :=
  let t := linkStr r "ThreadId"
  let m := linkStr r "RfcMessageId"
  (t != "") && (pyLower t != "nan") && (m != "") && (pyLower m != "nan")

/-- Lines 332-336: `if "ThreadId" not in df.columns: df["ThreadId"] =
None`, and the same for `RfcMessageId`.  No other column (in
particular no `Status`) is touched. -/
def ensure_columns (df : DataFrame) : DataFrame :=
  let df1 :=
    if df.cols.contains "ThreadId" then df
    else ⟨df.cols ++ ["ThreadId"],
          df.rows.map (fun r => setCell r "ThreadId" Cell.na)⟩
  if df1.cols.contains "RfcMessageId" then df1
  else ⟨df1.cols ++ ["RfcMessageId"],
        df1.rows.map (fun r => setCell r "RfcMessageId" Cell.na)⟩

/-! ### The send loop

External actions are recorded as an event trace.  Sleep bounds are in
tenths of a second so that `0.9 × delay` and `1.1 × delay` (with the
integer `delay` from the UI slider) stay in `Nat`. -/

inductive SendMode
  | newEmail
  | followUp
  | draft
deriving DecidableEq

inductive Event
  | providerSend (rowIdx : Nat) (threadId : Option String) (replyHeaders : Bool)
  | providerDraft (rowIdx : Nat)
  | headerFetch (rowIdx : Nat) (attempt : Nat)
  | sleepHeader (rowIdx : Nat) (loTenths hiTenths : Nat)
  | sleepJitter (rowIdx : Nat) (loTenths hiTenths : Nat)
  | labelApply (rowIdx : Nat)
  | saveTable
deriving DecidableEq

/-- The effect results for one row, supplied by the outside world:
whether `subject_template.format(**row)` / `body_template.format(**row)`
raise (`KeyError` message) or succeed; whether the provider send or
draft call raises or returns `(id, threadId)`; and the outcome of each
successive metadata fetch inside `fetch_message_id_header` (`none` for
an exception or an absent/falsy `Message-ID` header, `some h` for a
found nonempty header value). -/
structure RowEnv where
  render : Except String Unit
  provider : Except String (String × String)
  headerAttempts : Nat → Option String

/-- What the loop body records for a row in the run summary: success
(`sent_count += 1`), an appended skipped entry, or an appended
`(address, error)` pair from the `except` handler. -/
inductive Outcome
  | ok
  | skippedRow
  | errored (addr msg : String)
deriving DecidableEq

structure Summary where
  sent_count : Nat
  skipped : List (Option Cell)
  errors : List (String × String)
deriving DecidableEq

structure Config where
  mode : SendMode
  delay : Nat
  labelId : Option String

/-- `fetch_message_id_header` (lines 120-141): up to 6 attempts; on a
found header break out immediately; otherwise sleep
`random.uniform(1, 2)` seconds (10-20 tenths) and try again; after the
final failed attempt the loop still sleeps once, then
`message_id_header or ""` yields `""`. -/
def fetchLoop (attempts : Nat → Option String) (idx : Nat) :
    Nat → Nat → String × List Event
  | 0, _ => ("", [])
  | n + 1, k =>
    match attempts k with
    | some h => (h, [Event.headerFetch idx k])
    | none =>
      let rest := fetchLoop attempts idx n (k + 1)
      (rest.1, Event.headerFetch idx k :: Event.sleepHeader idx 10 20 :: rest.2)

def fetch_message_id_header (attempts : Nat → Option String) (idx : Nat) :
    String × List Event :=
  fetchLoop attempts idx 6 0

/-- One iteration of the send loop body (lines 342-428) for the row at
index `idx`: returns the possibly updated row, what gets recorded in
the run summary, and the trace of external actions, in order.

Shape of the embedding, following the source line by line:
* line 351: `to_addr = extract_email(str(row.get("Email", "")).strip())`;
  `if not to_addr: skipped.append(row.get("Email")); continue`.
* lines 357-358: template rendering; a `KeyError` propagates to the
  `except` handler at line 426, which appends `(to_addr, msg)` to
  `errors` and continues.
* lines 364-379: the message body; in Follow-up mode with linkage the
  reply headers are set and the thread id attached, otherwise (also
  silently, when linkage is missing) a plain body is built.
* lines 382-391: Draft mode creates a draft and stores its message ids.
* lines 394-417: Send modes call `messages().send`, keep
  `threadId or existing`, resolve the Message-ID header when the local
  id is nonempty, fall back `message_id_header or sent_msg_id or ""`,
  and (New mode, truthy label id, truthy message id) apply the label.
* lines 422-424: `if delay > 0 and send_mode != draft:` sleep
  `random.uniform(delay*0.9, delay*1.1)`.
No branch writes any `Status` cell: the source has none. -/
def processRow (cfg : Config) (idx : Nat) (row : Row) (env : RowEnv) :
    Row × Outcome × List Event :=
  match extract_email (some (pyStrip (cellGetStr row "Email"))) with
  | none => (row, Outcome.skippedRow, [])
  | some to_addr =>
    match env.render with
    | Except.error msg => (row, Outcome.errored to_addr msg, [])
    | Except.ok _ =>
      match cfg.mode with
      | SendMode.draft =>
        match env.provider with
        | Except.error msg =>
          (row, Outcome.errored to_addr msg, [Event.providerDraft idx])
        | Except.ok (id, tid) =>
          let row' := setCell (setCell row "ThreadId" (Cell.str tid))
                        "RfcMessageId" (Cell.str id)
          (row', Outcome.ok, [Event.providerDraft idx])
      | mode =>
        let link : Option String × Bool :=
          match mode with
          | SendMode.followUp =>
            if hasLinkage row then (some (linkStr row "ThreadId"), true)
            else (none, false)
          | _ => (none, false)
        match env.provider with
        | Except.error msg =>
          (row, Outcome.errored to_addr msg,
            [Event.providerSend idx link.1 link.2])
        | Except.ok (id, tid) =>
          let newTid : Cell :=
            if tid != "" then Cell.str tid
            else (getCell row "ThreadId").getD Cell.na
          let fetched :=
            if id != "" then fetch_message_id_header env.headerAttempts idx
            else ("", [])
          let rfc : String := if fetched.1 != "" then fetched.1 else id
          let row' := setCell (setCell row "ThreadId" newTid)
                        "RfcMessageId" (Cell.str rfc)
          let labelEvs : List Event :=
            if mode = SendMode.newEmail ∧ cfg.labelId.isSome ∧ id ≠ "" then
              [Event.labelApply idx]
            else []
          let sleepEvs : List Event :=
            if cfg.delay > 0 then
              [Event.sleepJitter idx (9 * cfg.delay) (11 * cfg.delay)]
            else []
          (row', Outcome.ok,
            Event.providerSend idx link.1 link.2 ::
              (fetched.2 ++ labelEvs ++ sleepEvs))

/-- `for idx, row in df.iterrows(): ...` (line 342): every row of the
table is visited, in order; the summary accumulates in row order. -/
def runLoop (cfg : Config) (envs : Nat → RowEnv) :
    Nat → List Row → List Row × Summary × List Event
  | _, [] => ([], ⟨0, [], []⟩, [])
  | idx, r :: rest =>
    let step := processRow cfg idx r (envs idx)
    let tail := runLoop cfg envs (idx + 1) rest
    let s := tail.2.1
    let s' : Summary :=
      match step.2.1 with
      | Outcome.ok => ⟨s.sent_count + 1, s.skipped, s.errors⟩
      | Outcome.skippedRow => ⟨s.sent_count, getCell r "Email" :: s.skipped, s.errors⟩
      | Outcome.errored a m => ⟨s.sent_count, s.skipped, (a, m) :: s.errors⟩
    (step.1 :: tail.1, s', step.2.2 ++ tail.2.2)

/-- One full run invocation (lines 311-462): ensure the tracking
columns, run the loop over every row, then perform the single
finalisation save `df.to_csv(file_path, index=False)` (line 437) —
which happens once, after the loop, whether or not the table was
empty. -/
def runInvocation (cfg : Config) (df : DataFrame) (envs : Nat → RowEnv) :
    DataFrame × Summary × List Event :=
  let df' := ensure_columns df
  let res := runLoop cfg envs 0 df'.rows
  (⟨df'.cols, res.1⟩, res.2.1, res.2.2 ++ [Event.saveTable])

/-! ### The Run Lock of spec §4.2

No lock of any kind exists in `src/` (the only run gating is the
Streamlit session flag `st.session_state["sending"]`, which is
per-browser-session state, not a cross-invocation marker).  The
operations below are therefore modelled from the spec. -/

/-- 24 hours, in seconds. -/
def lockExpiry : Nat := 24 * 60 * 60

/-- Modelled from the spec: the Run Lock marker file of §4.2 (missing
from `src/`), reduced to its `startTime` stamp. -/
structure LockState where
  marker : Option Nat
deriving DecidableEq

/-- Modelled from the spec: a marker is live when present and at most
24 hours old ("a lock older than 24 hours is considered abandoned and
is treated as absent"). -/
def lockLive (st : LockState) (now : Nat) : Bool :=
  match st.marker with
  | none => false
  | some t => decide (now - t ≤ lockExpiry)

/-- Modelled from the spec: `create(info) -> bool` of §4.2 (missing
from `src/`) — "atomically creates the marker file only if none exists
...; stamps `startTime = now`; returns false if a live marker already
exists".  An expired marker is treated as absent. -/
def lockCreate (st : LockState) (now : Nat) : Bool × LockState :=
  if lockLive st now then (false, st) else (true, ⟨some now⟩)

/-- Modelled from the spec: `release()` of §4.2 (missing from `src/`)
— "unconditionally removes the marker; safe to call when absent". -/
def lockRelease (_ : LockState) : LockState := ⟨none⟩

/-- Modelled from the spec: `isActive() -> bool` of §4.2 (missing from
`src/`) — absent gives false; present and older than 24h is deleted
and gives false; otherwise true. -/
def lockIsActive (st : LockState) (now : Nat) : Bool × LockState :=
  match st.marker with
  | none => (false, st)
  | some t => if now - t ≤ lockExpiry then (true, st) else (false, ⟨none⟩)

/-! ### Event classifiers and concrete fixtures used by the claims -/

def isHeaderFetch : Event → Bool
  | Event.headerFetch _ _ => true
  | _ => false

/-- A row environment where everything succeeds and the Message-ID
header resolves on the first attempt. -/
def envOK : RowEnv :=
  ⟨Except.ok (), Except.ok ("id1", "t1"), fun _ => some "<m1@x>"⟩

/-- Everything succeeds but the Message-ID header never resolves. -/
def envNoHeader : RowEnv :=
  ⟨Except.ok (), Except.ok ("id1", "t1"), fun _ => none⟩

/-- Template rendering raises (a referenced field absent from the row). -/
def envRenderFail : RowEnv :=
  ⟨Except.error "KeyError: Name", Except.ok ("id1", "t1"), fun _ => some "<m1@x>"⟩

def cfgNew20 : Config := ⟨SendMode.newEmail, 20, none⟩

def cfgFU20 : Config := ⟨SendMode.followUp, 20, none⟩

/-- A recipient row whose `Status` cell already says `Sent`. -/
def rowSent : Row := ⟨[("Email", Cell.str "a@b.com"), ("Status", Cell.str "Sent")]⟩

def dfSent : DataFrame := ⟨["Email", "Status"], [rowSent]⟩

/-- A follow-up row with blank `ThreadId` and missing `RfcMessageId`. -/
def rowNoLink : Row :=
  ⟨[("Email", Cell.str "c@d.org"), ("ThreadId", Cell.str ""), ("RfcMessageId", Cell.na)]⟩

/-- A row with a malformed email value, followed by a well-formed row. -/
def dfMalformed : DataFrame :=
  ⟨["Email"], [⟨[("Email", Cell.str "not-an-email")]⟩, ⟨[("Email", Cell.str "x@y.com")]⟩]⟩

/-- Two well-formed rows. -/
def dfTwo : DataFrame :=
  ⟨["Email"], [⟨[("Email", Cell.str "a@b.com")]⟩, ⟨[("Email", Cell.str "x@y.com")]⟩]⟩

/-- A single well-formed row (so this row is the last planned row). -/
def dfOne : DataFrame := ⟨["Email"], [⟨[("Email", Cell.str "a@b.com")]⟩]⟩

/-- An uploaded table with only an `Email` column. -/
def dfEmailOnly : DataFrame := ⟨["Email"], [⟨[("Email", Cell.str "a@b.com")]⟩]⟩

/-- Rendering fails on the first row, everything succeeds on the rest. -/
def envsRenderFail0 : Nat → RowEnv :=
  fun i => if i = 0 then envRenderFail else envOK

/-! ### Helper lemmas about cells -/

lemma find?_overwrite (l : List (String × Cell)) (n : String) (v : Cell)
    (h : (l.find? fun p => p.1 == n).isSome) :
    (l.map fun p => if p.1 == n then (p.1, v) else p).find? (fun p => p.1 == n)
      = some (n, v) := by
  induction l with
  | nil => simp at h
  | cons a t ih =>
    by_cases ha : a.1 = n
    · simp [ha]
    · have hb : (a.1 == n) = false := beq_eq_false_iff_ne.mpr ha
      rw [List.find?_cons_of_neg _ (by simp [hb])] at h
      simp only [List.map_cons, hb, Bool.false_eq_true, if_false]
      rw [List.find?_cons_of_neg _ (by simp [hb])]
      exact ih h

lemma find?_overwrite_ne (t : List (String × Cell)) (n n2 : String) (v : Cell)
    (h : n2 ≠ n) :
    (t.map fun p => if p.1 == n then (p.1, v) else p).find? (fun p => p.1 == n2)
      = t.find? (fun p => p.1 == n2) := by
  induction t with
  | nil => rfl
  | cons a t ih =>
    simp only [List.map_cons]
    by_cases ha : a.1 = n
    · have hne : a.1 ≠ n2 := by rw [ha]; exact fun hc => h hc.symm
      have hb : (a.1 == n2) = false := beq_eq_false_iff_ne.mpr hne
      rw [if_pos (by simp [ha])]
      rw [List.find?_cons_of_neg _ (by simp [hb]),
        List.find?_cons_of_neg _ (by simp [hb])]
      exact ih
    · rw [if_neg (by simp [ha])]
      by_cases hb : a.1 = n2
      · rw [List.find?_cons_of_pos _ (by simp [hb]),
          List.find?_cons_of_pos _ (by simp [hb])]
      · rw [List.find?_cons_of_neg _ (by simp [hb]),
          List.find?_cons_of_neg _ (by simp [hb])]
        exact ih

lemma getCell_setCell_same (r : Row) (n : String) (v : Cell) :
    getCell (setCell r n v) n = some v := by
  unfold getCell setCell
  by_cases h : (r.cells.find? fun p => p.1 == n).isSome = true
  · rw [if_pos h, find?_overwrite r.cells n v h]
    rfl
  · rw [if_neg h]
    have hnone : (r.cells.find? fun p => p.1 == n) = none :=
      Option.not_isSome_iff_eq_none.mp h
    show Option.map _ ((r.cells ++ [(n, v)]).find? fun p => p.1 == n) = _
    rw [List.find?_append, hnone]
    simp

lemma getCell_setCell_ne (r : Row) (n n2 : String) (v : Cell) (h : n2 ≠ n) :
    getCell (setCell r n v) n2 = getCell r n2 := by
  unfold getCell setCell
  by_cases hs : (r.cells.find? fun p => p.1 == n).isSome = true
  · rw [if_pos hs]
    show Option.map _ (List.find? _ (r.cells.map _)) = _
    rw [find?_overwrite_ne r.cells n n2 v h]
  · rw [if_neg hs]
    show Option.map _ ((r.cells ++ [(n, v)]).find? fun p => p.1 == n2) = _
    rw [List.find?_append]
    have h1 : (([(n, v)] : List (String × Cell)).find? fun p => p.1 == n2) = none := by
      simp [beq_eq_false_iff_ne.mpr (Ne.symm h)]
    rw [h1, Option.or_none]

/-! ### Helper lemmas about the header-fetch retry loop -/

lemma fetchLoop_attempt_count (attempts : Nat → Option String) (idx : Nat) :
    ∀ n k, ((fetchLoop attempts idx n k).2.filter isHeaderFetch).length ≤ n := by
  intro n
  induction n with
  | zero => intro k; simp [fetchLoop]
  | succ n ih =>
    intro k
    cases h : attempts k with
    | some h2 => simp [fetchLoop, h, isHeaderFetch]
    | none =>
      simp only [fetchLoop, h, List.filter_cons, isHeaderFetch]
      simpa using Nat.succ_le_succ (ih (k + 1))

lemma fetchLoop_sleep_bounds (attempts : Nat → Option String) (idx : Nat) :
    ∀ n k i lo hi, Event.sleepHeader i lo hi ∈ (fetchLoop attempts idx n k).2 →
      i = idx ∧ lo = 10 ∧ hi = 20 := by
  intro n
  induction n with
  | zero => intro k i lo hi hmem; simp [fetchLoop] at hmem
  | succ n ih =>
    intro k i lo hi hmem
    cases h : attempts k with
    | some h2 => rw [fetchLoop, h] at hmem; simp at hmem
    | none =>
      rw [fetchLoop, h] at hmem
      simp only [List.mem_cons] at hmem
      rcases hmem with h1 | h1 | h1
      · exact absurd h1 (by simp)
      · exact ⟨(Event.sleepHeader.injEq _ _ _ _ _ _).mp h1 |>.1,
          (Event.sleepHeader.injEq _ _ _ _ _ _).mp h1 |>.2.1,
          (Event.sleepHeader.injEq _ _ _ _ _ _).mp h1 |>.2.2⟩
      · exact ih (k + 1) i lo hi h1

lemma fetchLoop_all_none (attempts : Nat → Option String) (idx : Nat)
    (hall : ∀ j, attempts j = none) :
    ∀ n k, (fetchLoop attempts idx n k).1 = "" := by
  intro n
  induction n with
  | zero => intro k; rfl
  | succ n ih => intro k; rw [fetchLoop, hall k]; exact ih (k + 1)

lemma fetchLoop_only_fetch_events (attempts : Nat → Option String) (idx : Nat) :
    ∀ n k e, e ∈ (fetchLoop attempts idx n k).2 →
      (∃ a, e = Event.headerFetch idx a) ∨ e = Event.sleepHeader idx 10 20 := by
  intro n
  induction n with
  | zero => intro k e hmem; simp [fetchLoop] at hmem
  | succ n ih =>
    intro k e hmem
    cases h : attempts k with
    | some h2 =>
      rw [fetchLoop, h] at hmem
      simp only [List.mem_singleton] at hmem
      exact Or.inl ⟨k, hmem⟩
    | none =>
      rw [fetchLoop, h] at hmem
      simp only [List.mem_cons] at hmem
      rcases hmem with h1 | h1 | h1
      · exact Or.inl ⟨k, h1⟩
      · exact Or.inr h1
      · exact ih (k + 1) e h1

/-! ### Helper lemmas about the loop body -/

/-- Every event the loop body can emit for row `idx`, with the jitter
sleep characterised exactly: it occurs only on a successful non-draft
row with positive delay, and always with the bounds
`[0.9 × delay, 1.1 × delay]`. -/
lemma processRow_event_mem (cfg : Config) (idx : Nat) (r : Row) (env : RowEnv)
    (e : Event) (hmem : e ∈ (processRow cfg idx r env).2.2) :
    (∃ t b, e = Event.providerSend idx t b) ∨ e = Event.providerDraft idx ∨
    (∃ a, e = Event.headerFetch idx a) ∨ e = Event.sleepHeader idx 10 20 ∨
    (e = Event.sleepJitter idx (9 * cfg.delay) (11 * cfg.delay) ∧ 0 < cfg.delay ∧
      cfg.mode ≠ SendMode.draft ∧ (processRow cfg idx r env).2.1 = Outcome.ok) ∨
    e = Event.labelApply idx := by
  cases hx : extract_email (some (pyStrip (cellGetStr r "Email"))) with
  | none => simp [processRow, hx] at hmem
  | some addr =>
    cases hr : env.render with
    | error m => simp [processRow, hx, hr] at hmem
    | ok u =>
      cases hm : cfg.mode with
      | draft =>
        cases hp : env.provider with
        | error m =>
          simp only [processRow, hx, hr, hm, hp, List.mem_singleton] at hmem
          exact Or.inr (Or.inl hmem)
        | ok p =>
          obtain ⟨id, tid⟩ := p
          simp only [processRow, hx, hr, hm, hp, List.mem_singleton] at hmem
          exact Or.inr (Or.inl hmem)
      | newEmail =>
        cases hp : env.provider with
        | error m =>
          simp only [processRow, hx, hr, hm, hp, List.mem_singleton] at hmem
          exact Or.inl ⟨none, false, hmem⟩
        | ok p =>
          obtain ⟨id, tid⟩ := p
          simp only [processRow, hx, hr, hm, hp, List.mem_cons, List.mem_append,
            List.append_assoc] at hmem
          rcases hmem with h | h | h | h
          · exact Or.inl ⟨none, false, h⟩
          · split at h
            · rcases fetchLoop_only_fetch_events _ _ _ _ _ h with ⟨a, h2⟩ | h2
              · exact Or.inr (Or.inr (Or.inl ⟨a, h2⟩))
              · exact Or.inr (Or.inr (Or.inr (Or.inl h2)))
            · simp at h
          · split at h
            · simp only [List.mem_singleton] at h
              exact Or.inr (Or.inr (Or.inr (Or.inr (Or.inr h))))
            · simp at h
          · split at h
            · simp only [List.mem_singleton] at h
              refine Or.inr (Or.inr (Or.inr (Or.inr (Or.inl ⟨h, by assumption, ?_, ?_⟩))))
              · simp [hm]
              · simp [processRow, hx, hr, hm, hp]
            · simp at h
      | followUp =>
        cases hp : env.provider with
        | error m =>
          simp only [processRow, hx, hr, hm, hp, List.mem_singleton] at hmem
          exact Or.inl ⟨_, _, hmem⟩
        | ok p =>
          obtain ⟨id, tid⟩ := p
          simp only [processRow, hx, hr, hm, hp, List.mem_cons, List.mem_append,
            List.append_assoc] at hmem
          rcases hmem with h | h | h | h
          · exact Or.inl ⟨_, _, h⟩
          · split at h
            · rcases fetchLoop_only_fetch_events _ _ _ _ _ h with ⟨a, h2⟩ | h2
              · exact Or.inr (Or.inr (Or.inl ⟨a, h2⟩))
              · exact Or.inr (Or.inr (Or.inr (Or.inl h2)))
            · simp at h
          · split at h
            · simp only [List.mem_singleton] at h
              exact Or.inr (Or.inr (Or.inr (Or.inr (Or.inr h))))
            · simp at h
          · split at h
            · simp only [List.mem_singleton] at h
              refine Or.inr (Or.inr (Or.inr (Or.inr (Or.inl ⟨h, by assumption, ?_, ?_⟩))))
              · simp [hm]
              · simp [processRow, hx, hr, hm, hp]
            · simp at h

lemma processRow_no_save (cfg : Config) (idx : Nat) (r : Row) (env : RowEnv) :
    Event.saveTable ∉ (processRow cfg idx r env).2.2 := by
  intro hmem
  rcases processRow_event_mem cfg idx r env _ hmem with
    ⟨t, b, h⟩ | h | ⟨a, h⟩ | h | ⟨h, _⟩ | h <;> exact Event.noConfusion h

lemma runLoop_no_save (cfg : Config) (envs : Nat → RowEnv) :
    ∀ rows idx, Event.saveTable ∉ (runLoop cfg envs idx rows).2.2 := by
  intro rows
  induction rows with
  | nil => intro idx; simp [runLoop]
  | cons r rest ih =>
    intro idx hmem
    simp only [runLoop, List.mem_append] at hmem
    rcases hmem with h | h
    · exact processRow_no_save cfg idx r (envs idx) h
    · exact ih (idx + 1) h

/-! ### Claim C1 -/

/-- C1: the claim says a row whose `Status` is `Sent` (or `Draft`, or
`Skipped`) is never included again by a re-invocation and receives no
second provider call.  Counterexample: the send loop never reads any
`Status` value — re-invoking on a table whose only row is already
marked `Sent` still makes a provider send call for that row. -/
theorem C1_terminal_row_reprocessed_cex :
    getCell rowSent "Status" = some (Cell.str "Sent") ∧
    Event.providerSend 0 none false ∈
      (runInvocation cfgNew20 dfSent (fun _ => envOK)).2.2 := by
  decide

/-- C1 (amended): re-invoking the run includes every row regardless of
any `Status` value: each row with an extractable address and successful
rendering gets a provider send call in any non-draft mode — there is no
pending-set computation and no terminal-status exclusion. -/
theorem C1_every_row_reprocessed (cfg : Config) (envs : Nat → RowEnv) (idx : Nat)
    (r : Row) (rest : List Row) (addr : String)
    (hx : extract_email (some (pyStrip (cellGetStr r "Email"))) = some addr)
    (hr : (envs idx).render = Except.ok ())
    (hm : cfg.mode ≠ SendMode.draft) :
    ∃ t b, Event.providerSend idx t b ∈ (runLoop cfg envs idx (r :: rest)).2.2 := by
  have hstep : ∃ t b,
      Event.providerSend idx t b ∈ (processRow cfg idx r (envs idx)).2.2 := by
    cases hmode : cfg.mode with
    | draft => exact absurd hmode hm
    | newEmail =>
      cases hp : (envs idx).provider with
      | error m => exact ⟨none, false, by simp [processRow, hx, hr, hmode, hp]⟩
      | ok p =>
        obtain ⟨id, tid⟩ := p
        exact ⟨none, false, by simp [processRow, hx, hr, hmode, hp]⟩
    | followUp =>
      by_cases hl : hasLinkage r
      · cases hp : (envs idx).provider with
        | error m =>
          exact ⟨some (linkStr r "ThreadId"), true,
            by simp [processRow, hx, hr, hmode, hp, hl]⟩
        | ok p =>
          obtain ⟨id, tid⟩ := p
          exact ⟨some (linkStr r "ThreadId"), true,
            by simp [processRow, hx, hr, hmode, hp, hl]⟩
      · cases hp : (envs idx).provider with
        | error m =>
          exact ⟨none, false, by simp [processRow, hx, hr, hmode, hp, hl]⟩
        | ok p =>
          obtain ⟨id, tid⟩ := p
          exact ⟨none, false, by simp [processRow, hx, hr, hmode, hp, hl]⟩
  rcases hstep with ⟨t, b, h⟩
  refine ⟨t, b, ?_⟩
  simp only [runLoop, List.mem_append]
  exact Or.inl h

theorem C1_every_row_reprocessed_witness :
    ∃ t b, Event.providerSend 0 t b ∈
      (runLoop cfgNew20 (fun _ => envOK) 0 [rowSent]).2.2 :=
  C1_every_row_reprocessed cfgNew20 (fun _ => envOK) 0 rowSent [] "a@b.com"
    (by decide) rfl (by decide)

/-! ### Claim C2 -/

/-- C2: the claim says the table is durably saved after every single
row's outcome.  Counterexample: a run over two rows whose outcomes are
both determined (both sent) performs exactly one save, not two. -/
theorem C2_save_once_cex :
    (runInvocation cfgNew20 dfTwo (fun _ => envOK)).2.1.sent_count = 2 ∧
    (((runInvocation cfgNew20 dfTwo (fun _ => envOK)).2.2.filter
      (fun e => e == Event.saveTable)).length) = 1 := by
  decide

/-- C2 (amended): the full table is saved exactly once per invocation,
as the final action after all rows are processed — not after each
row.  (A hard crash mid-run therefore loses every row's outcome, not at
most one.) -/
theorem C2_single_final_save (cfg : Config) (df : DataFrame) (envs : Nat → RowEnv) :
    ∃ evs, (runInvocation cfg df envs).2.2 = evs ++ [Event.saveTable] ∧
      Event.saveTable ∉ evs :=
  ⟨(runLoop cfg envs 0 (ensure_columns df).rows).2.2, rfl,
    runLoop_no_save cfg envs _ 0⟩

theorem C2_single_final_save_witness :
    ∃ evs, (runInvocation cfgNew20 dfTwo (fun _ => envOK)).2.2 =
      evs ++ [Event.saveTable] ∧ Event.saveTable ∉ evs :=
  C2_single_final_save cfgNew20 dfTwo (fun _ => envOK)

/-! ### Claim C5 -/

/-- C5: the claim says a row with no extractable email is marked
`Skipped`.  Counterexample: the first row of `dfMalformed` has email
value `"not-an-email"`; the run records it in the summary's skipped
list, but the row itself is left entirely unmarked — it has no
`Status` cell at all after the run (no `Status` column exists
anywhere in the engine). -/
theorem C5_skipped_not_marked_cex :
    (runInvocation cfgNew20 dfMalformed (fun _ => envOK)).2.1.skipped =
      [some (Cell.str "not-an-email")] ∧
    (Option.map (fun r => getCell r "Status")
      ((runInvocation cfgNew20 dfMalformed (fun _ => envOK)).1.rows.get? 0)) =
      some none := by
  decide

/-- C5 (amended): a row whose email field yields no extractable address
is recorded in the run summary's skipped list, no provider call (indeed
no external action at all) is made for it, the row itself is left
unchanged (no status is written), and processing continues with the
remaining rows. -/
theorem C5_skip_on_malformed (cfg : Config) (envs : Nat → RowEnv) (idx : Nat)
    (r : Row) (rest : List Row)
    (hx : extract_email (some (pyStrip (cellGetStr r "Email"))) = none) :
    (runLoop cfg envs idx (r :: rest)).1 = r :: (runLoop cfg envs (idx + 1) rest).1 ∧
    (runLoop cfg envs idx (r :: rest)).2.1.skipped =
      getCell r "Email" :: (runLoop cfg envs (idx + 1) rest).2.1.skipped ∧
    (runLoop cfg envs idx (r :: rest)).2.1.sent_count =
      (runLoop cfg envs (idx + 1) rest).2.1.sent_count ∧
    (runLoop cfg envs idx (r :: rest)).2.1.errors =
      (runLoop cfg envs (idx + 1) rest).2.1.errors ∧
    (runLoop cfg envs idx (r :: rest)).2.2 = (runLoop cfg envs (idx + 1) rest).2.2 := by
  simp [runLoop, processRow, hx]

theorem C5_skip_on_malformed_witness :
    (runLoop cfgNew20 (fun _ => envOK) 0
        [⟨[("Email", Cell.str "not-an-email")]⟩, ⟨[("Email", Cell.str "x@y.com")]⟩]).1 =
      ⟨[("Email", Cell.str "not-an-email")]⟩ ::
        (runLoop cfgNew20 (fun _ => envOK) 1 [⟨[("Email", Cell.str "x@y.com")]⟩]).1 ∧
    (runLoop cfgNew20 (fun _ => envOK) 0
        [⟨[("Email", Cell.str "not-an-email")]⟩, ⟨[("Email", Cell.str "x@y.com")]⟩]).2.1.skipped =
      getCell ⟨[("Email", Cell.str "not-an-email")]⟩ "Email" ::
        (runLoop cfgNew20 (fun _ => envOK) 1 [⟨[("Email", Cell.str "x@y.com")]⟩]).2.1.skipped ∧
    (runLoop cfgNew20 (fun _ => envOK) 0
        [⟨[("Email", Cell.str "not-an-email")]⟩, ⟨[("Email", Cell.str "x@y.com")]⟩]).2.1.sent_count =
      (runLoop cfgNew20 (fun _ => envOK) 1 [⟨[("Email", Cell.str "x@y.com")]⟩]).2.1.sent_count ∧
    (runLoop cfgNew20 (fun _ => envOK) 0
        [⟨[("Email", Cell.str "not-an-email")]⟩, ⟨[("Email", Cell.str "x@y.com")]⟩]).2.1.errors =
      (runLoop cfgNew20 (fun _ => envOK) 1 [⟨[("Email", Cell.str "x@y.com")]⟩]).2.1.errors ∧
    (runLoop cfgNew20 (fun _ => envOK) 0
        [⟨[("Email", Cell.str "not-an-email")]⟩, ⟨[("Email", Cell.str "x@y.com")]⟩]).2.2 =
      (runLoop cfgNew20 (fun _ => envOK) 1 [⟨[("Email", Cell.str "x@y.com")]⟩]).2.2 :=
  C5_skip_on_malformed cfgNew20 (fun _ => envOK) 0
    ⟨[("Email", Cell.str "not-an-email")]⟩ [⟨[("Email", Cell.str "x@y.com")]⟩]
    (by decide)

/-! ### Claim C6 -/

/-- C6: the claim says a row-local failure marks the row
`Error(message)`.  Counterexample: rendering fails on the first row of
`dfTwo`; the `(address, error)` pair is recorded in the summary and the
second row is still processed (the batch is not aborted), but the
failing row is left unmarked — it has no `Status` cell after the run. -/
theorem C6_error_not_marked_cex :
    (runInvocation cfgNew20 dfTwo envsRenderFail0).2.1.errors =
      [("a@b.com", "KeyError: Name")] ∧
    (runInvocation cfgNew20 dfTwo envsRenderFail0).2.1.sent_count = 1 ∧
    (Option.map (fun r => getCell r "Status")
      ((runInvocation cfgNew20 dfTwo envsRenderFail0).1.rows.get? 0)) =
      some none := by
  decide

/-- C6 (amended): a template-rendering failure or a provider call
failure records the `(address, error)` pair in the run summary and
processing continues with the remaining rows — per-row isolation holds
— but the failing row itself is not marked (there is no `Status`
column; the row is left unchanged). -/
theorem C6_row_failure_recorded :
    (∀ (cfg : Config) (envs : Nat → RowEnv) (idx : Nat) (r : Row) (rest : List Row)
      (addr msg : String),
      extract_email (some (pyStrip (cellGetStr r "Email"))) = some addr →
      (envs idx).render = Except.error msg →
      (runLoop cfg envs idx (r :: rest)).1 = r :: (runLoop cfg envs (idx + 1) rest).1 ∧
      (runLoop cfg envs idx (r :: rest)).2.1.errors =
        (addr, msg) :: (runLoop cfg envs (idx + 1) rest).2.1.errors ∧
      (runLoop cfg envs idx (r :: rest)).2.2 = (runLoop cfg envs (idx + 1) rest).2.2) ∧
    (∀ (cfg : Config) (envs : Nat → RowEnv) (idx : Nat) (r : Row) (rest : List Row)
      (addr msg : String),
      extract_email (some (pyStrip (cellGetStr r "Email"))) = some addr →
      (envs idx).render = Except.ok () →
      (envs idx).provider = Except.error msg →
      (runLoop cfg envs idx (r :: rest)).1 = r :: (runLoop cfg envs (idx + 1) rest).1 ∧
      (runLoop cfg envs idx (r :: rest)).2.1.errors =
        (addr, msg) :: (runLoop cfg envs (idx + 1) rest).2.1.errors) := by
  constructor
  · intro cfg envs idx r rest addr msg hx hr
    simp [runLoop, processRow, hx, hr]
  · intro cfg envs idx r rest addr msg hx hr hp
    cases hmode : cfg.mode <;> simp [runLoop, processRow, hx, hr, hp, hmode]

theorem C6_row_failure_recorded_witness :
    (runLoop cfgNew20 envsRenderFail0 0 [⟨[("Email", Cell.str "a@b.com")]⟩]).1 =
      ⟨[("Email", Cell.str "a@b.com")]⟩ :: (runLoop cfgNew20 envsRenderFail0 1 []).1 ∧
    (runLoop cfgNew20 envsRenderFail0 0 [⟨[("Email", Cell.str "a@b.com")]⟩]).2.1.errors =
      ("a@b.com", "KeyError: Name") ::
        (runLoop cfgNew20 envsRenderFail0 1 []).2.1.errors ∧
    (runLoop cfgNew20 envsRenderFail0 0 [⟨[("Email", Cell.str "a@b.com")]⟩]).2.2 =
      (runLoop cfgNew20 envsRenderFail0 1 []).2.2 :=
  C6_row_failure_recorded.1 cfgNew20 envsRenderFail0 0
    ⟨[("Email", Cell.str "a@b.com")]⟩ [] "a@b.com" "KeyError: Name"
    (by decide) rfl

/-! ### Claim C7 -/

/-- C7 (confirmed): after a successful send the durable (RFC)
Message-ID is resolved by a bounded retry — at most 6 fetch attempts,
every spacing sleep drawn uniformly from 1 to 2 seconds (10 to 20
tenths) — and when every attempt fails the header resolves to `""`, the
row's `RfcMessageId` falls back to the provider's local message id, and
the row is still a success (`sent_count` is incremented): resolution
failure is non-fatal. -/
theorem C7_header_retry_and_fallback :
    (∀ (attempts : Nat → Option String) (idx : Nat),
      ((fetch_message_id_header attempts idx).2.filter isHeaderFetch).length ≤ 6) ∧
    (∀ (attempts : Nat → Option String) (idx i lo hi : Nat),
      Event.sleepHeader i lo hi ∈ (fetch_message_id_header attempts idx).2 →
      i = idx ∧ lo = 10 ∧ hi = 20) ∧
    (∀ (attempts : Nat → Option String) (idx : Nat), (∀ j, attempts j = none) →
      (fetch_message_id_header attempts idx).1 = "") ∧
    (∀ (cfg : Config) (idx : Nat) (r : Row) (env : RowEnv) (addr id tid : String),
      cfg.mode = SendMode.newEmail →
      extract_email (some (pyStrip (cellGetStr r "Email"))) = some addr →
      env.render = Except.ok () →
      env.provider = Except.ok (id, tid) →
      (∀ j, env.headerAttempts j = none) → id ≠ "" →
      getCell (processRow cfg idx r env).1 "RfcMessageId" = some (Cell.str id) ∧
      (processRow cfg idx r env).2.1 = Outcome.ok) := by
  refine ⟨fun attempts idx => fetchLoop_attempt_count attempts idx 6 0,
    fun attempts idx => fetchLoop_sleep_bounds attempts idx 6 0,
    fun attempts idx hall => fetchLoop_all_none attempts idx hall 6 0, ?_⟩
  intro cfg idx r env addr id tid hm hx hr hp hall hid
  have hfetch : (fetch_message_id_header env.headerAttempts idx).1 = "" :=
    fetchLoop_all_none env.headerAttempts idx hall 6 0
  have h1 : (id != "") = true := bne_iff_ne.mpr hid
  simp only [processRow, hx, hr, hm, hp, h1, if_true, hfetch, bne_self_eq_false,
    Bool.false_eq_true, if_false]
  exact ⟨getCell_setCell_same _ _ _, trivial⟩

theorem C7_header_retry_and_fallback_witness :
    ((fetch_message_id_header (fun _ => none) 0).2.filter isHeaderFetch).length ≤ 6 ∧
    (fetch_message_id_header (fun _ => none) 0).1 = "" ∧
    getCell (processRow cfgNew20 0 ⟨[("Email", Cell.str "a@b.com")]⟩ envNoHeader).1
      "RfcMessageId" = some (Cell.str "id1") ∧
    (processRow cfgNew20 0 ⟨[("Email", Cell.str "a@b.com")]⟩ envNoHeader).2.1 =
      Outcome.ok :=
  ⟨C7_header_retry_and_fallback.1 (fun _ => none) 0,
    C7_header_retry_and_fallback.2.2.1 (fun _ => none) 0 (fun _ => rfl),
    (C7_header_retry_and_fallback.2.2.2 cfgNew20 0 ⟨[("Email", Cell.str "a@b.com")]⟩
      envNoHeader "a@b.com" "id1" "t1" rfl (by decide) rfl rfl (fun _ => rfl)
      (by decide)).1,
    (C7_header_retry_and_fallback.2.2.2 cfgNew20 0 ⟨[("Email", Cell.str "a@b.com")]⟩
      envNoHeader "a@b.com" "id1" "t1" rfl (by decide) rfl rfl (fun _ => rfl)
      (by decide)).2⟩

/-! ### Claim C8 -/

/-- C8: the claim says no pacing sleep happens after the last planned
row.  Counterexample: a run over the single row of `dfOne` (so that row
is the last planned row) in New Email mode still performs the jitter
sleep with bounds `[0.9 × 20, 1.1 × 20]` seconds (180 to 220 tenths). -/
theorem C8_sleep_after_last_cex :
    (runInvocation cfgNew20 dfOne (fun _ => envOK)).1.rows.length = 1 ∧
    Event.sleepJitter 0 180 220 ∈
      (runInvocation cfgNew20 dfOne (fun _ => envOK)).2.2 := by
  decide

/-- C8 (amended): after every successfully processed non-draft row with
positive delay — including the last planned row — the executor sleeps a
randomized duration drawn uniformly from `[0.9 × delay, 1.1 × delay]`;
conversely, a jitter sleep happens only on such rows (never in Draft
mode, never for skipped or errored rows) and always with exactly those
bounds. -/
theorem C8_jitter_pacing :
    (∀ (cfg : Config) (idx : Nat) (r : Row) (env : RowEnv) (addr id tid : String),
      cfg.mode ≠ SendMode.draft → 0 < cfg.delay →
      extract_email (some (pyStrip (cellGetStr r "Email"))) = some addr →
      env.render = Except.ok () → env.provider = Except.ok (id, tid) →
      Event.sleepJitter idx (9 * cfg.delay) (11 * cfg.delay) ∈
        (processRow cfg idx r env).2.2) ∧
    (∀ (cfg : Config) (idx : Nat) (r : Row) (env : RowEnv) (i lo hi : Nat),
      Event.sleepJitter i lo hi ∈ (processRow cfg idx r env).2.2 →
      i = idx ∧ lo = 9 * cfg.delay ∧ hi = 11 * cfg.delay ∧ 0 < cfg.delay ∧
      cfg.mode ≠ SendMode.draft ∧ (processRow cfg idx r env).2.1 = Outcome.ok) := by
  constructor
  · intro cfg idx r env addr id tid hm hd hx hr hp
    cases hmode : cfg.mode with
    | draft => exact absurd hmode hm
    | newEmail => simp [processRow, hx, hr, hp, hmode, hd]
    | followUp => simp [processRow, hx, hr, hp, hmode, hd]
  · intro cfg idx r env i lo hi hmem
    rcases processRow_event_mem cfg idx r env _ hmem with
      ⟨t, b, h⟩ | h | ⟨a, h⟩ | h | ⟨h, hd, hm, hok⟩ | h
    · exact Event.noConfusion h
    · exact Event.noConfusion h
    · exact Event.noConfusion h
    · exact Event.noConfusion h
    · obtain ⟨h1, h2, h3⟩ := (Event.sleepJitter.injEq _ _ _ _ _ _).mp h
      exact ⟨h1, h2, h3, hd, hm, hok⟩
    · exact Event.noConfusion h

theorem C8_jitter_pacing_witness :
    Event.sleepJitter 0 (9 * cfgNew20.delay) (11 * cfgNew20.delay) ∈
      (processRow cfgNew20 0 ⟨[("Email", Cell.str "a@b.com")]⟩ envOK).2.2 :=
  C8_jitter_pacing.1 cfgNew20 0 ⟨[("Email", Cell.str "a@b.com")]⟩ envOK
    "a@b.com" "id1" "t1" (by decide) (by decide) (by decide) rfl rfl

/-! ### Claim C9 -/

/-- C9: the claim says `ThreadId`, `RfcMessageId` and `Status` are all
guaranteed present after load, each created with default empty string
when absent.  Counterexample: on a table with only an `Email` column,
the column initialisation never creates `Status`, and both the
`ThreadId` and the `RfcMessageId` it creates default to `None`
(`Cell.na`), not to the empty string. -/
theorem C9_status_column_cex :
    "Status" ∉ (ensure_columns dfEmailOnly).cols ∧
    (Option.map (fun r => getCell r "ThreadId")
      ((ensure_columns dfEmailOnly).rows.get? 0)) = some (some Cell.na) ∧
    (Option.map (fun r => getCell r "RfcMessageId")
      ((ensure_columns dfEmailOnly).rows.get? 0)) = some (some Cell.na) := by
  decide

/-- C9 (amended): after column initialisation, `ThreadId` and
`RfcMessageId` are guaranteed present, each created with default `None`
(not empty string) when absent; `Status` is present afterwards only if
it was already in the upload; row count and order are preserved (the
rows are transformed in place), and every column other than `ThreadId`
and `RfcMessageId` keeps its cells unchanged in every row. -/
theorem C9_tracking_columns (df : DataFrame) :
    "ThreadId" ∈ (ensure_columns df).cols ∧
    "RfcMessageId" ∈ (ensure_columns df).cols ∧
    ("Status" ∈ (ensure_columns df).cols ↔ "Status" ∈ df.cols) ∧
    (ensure_columns df).rows.length = df.rows.length ∧
    (∀ i r, df.rows.get? i = some r → ∃ r2,
      (ensure_columns df).rows.get? i = some r2 ∧
      ∀ nm, nm ≠ "ThreadId" → nm ≠ "RfcMessageId" →
        getCell r2 nm = getCell r nm) ∧
    ("ThreadId" ∉ df.cols →
      ∀ r2 ∈ (ensure_columns df).rows, getCell r2 "ThreadId" = some Cell.na) ∧
    ("RfcMessageId" ∉ df.cols →
      ∀ r2 ∈ (ensure_columns df).rows, getCell r2 "RfcMessageId" = some Cell.na) := by
  have hTR : ("ThreadId" : String) ≠ "RfcMessageId" := by decide
  have hST : ("Status" : String) ≠ "ThreadId" := by decide
  have hSR : ("Status" : String) ≠ "RfcMessageId" := by decide
  by_cases hm1 : "ThreadId" ∈ df.cols
  · by_cases hm2 : "RfcMessageId" ∈ df.cols
    · have he : ensure_columns df = df := by simp [ensure_columns, hm1, hm2]
      rw [he]
      exact ⟨hm1, hm2, Iff.rfl, rfl, fun i r hr => ⟨r, hr, fun nm h1 h2 => rfl⟩,
        fun hna => absurd hm1 hna, fun hna => absurd hm2 hna⟩
    · have he : ensure_columns df =
          ⟨df.cols ++ ["RfcMessageId"],
            df.rows.map fun r => setCell r "RfcMessageId" Cell.na⟩ := by
        simp [ensure_columns, hm1, hm2]
      rw [he]
      refine ⟨List.mem_append_left _ hm1, List.mem_append_right _ (by simp),
        by simp [List.mem_append, hSR], by simp, ?_,
        fun hna => absurd hm1 hna, ?_⟩
      · intro i r hr
        exact ⟨setCell r "RfcMessageId" Cell.na, by rw [List.get?_map, hr]; rfl,
          fun nm h1 h2 => getCell_setCell_ne _ _ _ _ h2⟩
      · intro _ r2 hr2
        simp only [List.mem_map] at hr2
        obtain ⟨r, _, hr⟩ := hr2
        rw [← hr]
        exact getCell_setCell_same _ _ _
  · by_cases hm2 : "RfcMessageId" ∈ df.cols ++ ["ThreadId"]
    · have hm2d : "RfcMessageId" ∈ df.cols := by
        rcases List.mem_append.mp hm2 with h | h
        · exact h
        · simp only [List.mem_singleton] at h
          exact absurd h.symm hTR
      have he : ensure_columns df =
          ⟨df.cols ++ ["ThreadId"],
            df.rows.map fun r => setCell r "ThreadId" Cell.na⟩ := by
        simp [ensure_columns, hm1, hm2]
      rw [he]
      refine ⟨List.mem_append_right _ (by simp), hm2,
        by simp [List.mem_append, hST], by simp, ?_, ?_,
        fun hna => absurd hm2d hna⟩
      · intro i r hr
        exact ⟨setCell r "ThreadId" Cell.na, by rw [List.get?_map, hr]; rfl,
          fun nm h1 h2 => getCell_setCell_ne _ _ _ _ h1⟩
      · intro _ r2 hr2
        simp only [List.mem_map] at hr2
        obtain ⟨r, _, hr⟩ := hr2
        rw [← hr]
        exact getCell_setCell_same _ _ _
    · have he : ensure_columns df =
          ⟨df.cols ++ ["ThreadId"] ++ ["RfcMessageId"],
            (df.rows.map fun r => setCell r "ThreadId" Cell.na).map
              fun r => setCell r "RfcMessageId" Cell.na⟩ := by
        simp [ensure_columns, hm1, hm2]
      rw [he]
      refine ⟨List.mem_append_left _ (List.mem_append_right _ (by simp)),
        List.mem_append_right _ (by simp),
        by simp [List.mem_append, hST, hSR], by simp, ?_, ?_, ?_⟩
      · intro i r hr
        refine ⟨setCell (setCell r "ThreadId" Cell.na) "RfcMessageId" Cell.na,
          by rw [List.get?_map, List.get?_map, hr]; rfl, ?_⟩
        intro nm h1 h2
        rw [getCell_setCell_ne _ _ _ _ h2, getCell_setCell_ne _ _ _ _ h1]
      · intro _ r2 hr2
        simp only [List.map_map, List.mem_map, Function.comp] at hr2
        obtain ⟨r, _, hr⟩ := hr2
        rw [← hr, getCell_setCell_ne _ _ _ _ hTR]
        exact getCell_setCell_same _ _ _
      · intro _ r2 hr2
        simp only [List.map_map, List.mem_map, Function.comp] at hr2
        obtain ⟨r, _, hr⟩ := hr2
        rw [← hr]
        exact getCell_setCell_same _ _ _

theorem C9_tracking_columns_witness :
    "ThreadId" ∈ (ensure_columns dfTwo).cols ∧
    "RfcMessageId" ∈ (ensure_columns dfTwo).cols ∧
    ("Status" ∈ (ensure_columns dfTwo).cols ↔ "Status" ∈ dfTwo.cols) ∧
    (ensure_columns dfTwo).rows.length = dfTwo.rows.length ∧
    (∀ i r, dfTwo.rows.get? i = some r → ∃ r2,
      (ensure_columns dfTwo).rows.get? i = some r2 ∧
      ∀ nm, nm ≠ "ThreadId" → nm ≠ "RfcMessageId" →
        getCell r2 nm = getCell r nm) ∧
    ("ThreadId" ∉ dfTwo.cols →
      ∀ r2 ∈ (ensure_columns dfTwo).rows, getCell r2 "ThreadId" = some Cell.na) ∧
    ("RfcMessageId" ∉ dfTwo.cols →
      ∀ r2 ∈ (ensure_columns dfTwo).rows, getCell r2 "RfcMessageId" = some Cell.na) :=
  C9_tracking_columns dfTwo

/-! ### Claim C3 -/

/-- C3 (confirmed, against the spec-modelled Run Lock): `create`
succeeds only when no live marker exists, returns false whenever a live
(non-expired) marker exists, and between a successful `create` and the
matching `release` no second invocation can acquire the lock (stated
for any later acquisition attempt within the 24h liveness window —
beyond it the spec itself treats the marker as abandoned). -/
theorem C3_lock_exclusive_create :
    (∀ (st : LockState) (now : Nat), lockLive st now = true →
      (lockCreate st now).1 = false) ∧
    (∀ (st : LockState) (now : Nat), (lockCreate st now).1 = true →
      lockLive st now = false) ∧
    (∀ (st : LockState) (t0 t1 : Nat), (lockCreate st t0).1 = true →
      t0 ≤ t1 → t1 - t0 ≤ lockExpiry →
      (lockCreate (lockCreate st t0).2 t1).1 = false) ∧
    (∀ (st : LockState) (later : Nat),
      (lockCreate (lockRelease st) later).2.marker = some later) := by
  refine ⟨?_, ?_, ?_, ?_⟩
  · intro st now h
    simp [lockCreate, h]
  · intro st now h
    by_cases hl : lockLive st now = true
    · simp [lockCreate, hl] at h
    · simpa using hl
  · intro st t0 t1 h ht hexp
    by_cases hl : lockLive st t0 = true
    · simp [lockCreate, hl] at h
    · have h2 : (lockCreate st t0).2 = ⟨some t0⟩ := by simp [lockCreate, hl]
      rw [h2]
      simp [lockCreate, lockLive, hexp]
  · intro st later
    simp [lockCreate, lockRelease, lockLive]

theorem C3_lock_exclusive_create_witness :
    (lockCreate (⟨some 50⟩ : LockState) 100).1 = false ∧
    lockLive (⟨none⟩ : LockState) 0 = false ∧
    (lockCreate (lockCreate (⟨none⟩ : LockState) 0).2 3600).1 = false ∧
    (lockCreate (lockRelease (⟨some 50⟩ : LockState)) 100).2.marker = some 100 :=
  ⟨C3_lock_exclusive_create.1 ⟨some 50⟩ 100 (by decide),
    C3_lock_exclusive_create.2.1 ⟨none⟩ 0 (by decide),
    C3_lock_exclusive_create.2.2.1 ⟨none⟩ 0 3600 (by decide) (by decide) (by decide),
    C3_lock_exclusive_create.2.2.2 ⟨some 50⟩ 100⟩

/-! ### Claim C4 -/

/-- C4: the claim (spec requirement) says a Follow-up row with missing
`threadId`/`rfcMessageId` must not be silently sent as a fresh,
unlinked message.  The code does exactly that: for `rowNoLink` (blank
`ThreadId`, missing `RfcMessageId`) in Follow-up mode, the linkage
check fails, yet the provider send is invoked with no thread
association and no reply headers, and the row counts as a success — no
skip, no error, no documented policy branch. -/
theorem C4_followup_silent_fresh_send :
    hasLinkage rowNoLink = false ∧
    (processRow cfgFU20 0 rowNoLink envOK).2.1 = Outcome.ok ∧
    Event.providerSend 0 none false ∈ (processRow cfgFU20 0 rowNoLink envOK).2.2 := by
  decide

/-! ### Claim C10: the matcher

Soundness and completeness of the greedy backtracking matcher against
`emailShape`, phrased through `List.drop` decompositions of the
subject string. -/

lemma drop_succ_of_drop_cons {s : List Char} {i : Nat} {x : Char} {t : List Char}
    (h : s.drop i = x :: t) : s.drop (i + 1) = t := by
  have h1 : s.drop (i + 1) = (s.drop i).drop 1 := (List.drop_drop 1 i s).symm
  rw [h1, h]
  rfl

lemma drop_of_drop_append {s : List Char} {i : Nat} {l rest : List Char}
    (h : s.drop i = l ++ rest) : s.drop (i + l.length) = rest := by
  have h1 : s.drop (i + l.length) = (s.drop i).drop l.length :=
    (List.drop_drop l.length i s).symm
  rw [h1, h, List.drop_left]

lemma get?_of_drop_cons {s : List Char} {i : Nat} {x : Char} {t : List Char}
    (h : s.drop i = x :: t) : s.get? i = some x := by
  have h0 : (s.drop i).get? 0 = s.get? (i + 0) := List.get?_drop s i 0
  rw [h] at h0
  simpa using h0.symm

lemma drop_cons_of_get? {s : List Char} {i : Nat} {c : Char}
    (h : s.get? i = some c) : s.drop i = c :: s.drop (i + 1) := by
  have h0 : (s.drop i).get? 0 = some c := by
    rw [List.get?_drop]; simpa using h
  cases hd : s.drop i with
  | nil => rw [hd] at h0; cases h0
  | cons y t =>
    rw [hd] at h0
    simp only [List.get?_cons_zero, Option.some.injEq] at h0
    subst h0
    exact congrArg _ (drop_succ_of_drop_cons hd).symm

lemma manyGreedy_sound (p : Char → Bool) (s : List Char) (k : Nat → Option Nat) :
    ∀ fuel i e, manyGreedy p s k fuel i = some e →
      ∃ j l, (∀ x ∈ l, p x = true) ∧ s.drop i = l ++ s.drop j ∧
        i + l.length = j ∧ k j = some e := by
  intro fuel
  induction fuel with
  | zero =>
    intro i e h
    exact ⟨i, [], by simp, by simp, by simp, h⟩
  | succ fuel ih =>
    intro i e h
    rw [manyGreedy] at h
    split at h
    next c hget =>
      split at h
      next hp =>
        split at h
        next e2 hrec =>
          obtain ⟨j, l, hall, hdrop, hlen, hk⟩ := ih (i + 1) e2 hrec
          have he : e2 = e := by simpa using h
          subst he
          refine ⟨j, c :: l, ?_, ?_, ?_, hk⟩
          · intro x hx
            rcases List.mem_cons.mp hx with h1 | h1
            · rw [h1]; exact hp
            · exact hall x h1
          · rw [drop_cons_of_get? hget, hdrop]; rfl
          · simp only [List.length_cons]; omega
        next hrec =>
          exact ⟨i, [], by simp, by simp, by simp, h⟩
      next hp =>
        exact ⟨i, [], by simp, by simp, by simp, h⟩
    next hget =>
      exact ⟨i, [], by simp, by simp, by simp, h⟩

lemma plusGreedy_sound (p : Char → Bool) (s : List Char) (k : Nat → Option Nat)
    (i e : Nat) (h : plusGreedy p s k i = some e) :
    ∃ j l, l ≠ [] ∧ (∀ x ∈ l, p x = true) ∧ s.drop i = l ++ s.drop j ∧
      i + l.length = j ∧ k j = some e := by
  rw [plusGreedy] at h
  split at h
  next c hget =>
    split at h
    next hp =>
      obtain ⟨j, l, hall, hdrop, hlen, hk⟩ := manyGreedy_sound p s k s.length (i + 1) e h
      refine ⟨j, c :: l, by simp, ?_, ?_, ?_, hk⟩
      · intro x hx
        rcases List.mem_cons.mp hx with h1 | h1
        · rw [h1]; exact hp
        · exact hall x h1
      · rw [drop_cons_of_get? hget, hdrop]; rfl
      · simp only [List.length_cons]; omega
    next hp => cases h
  next hget => cases h

lemma litChar_sound (c : Char) (s : List Char) (k : Nat → Option Nat)
    (i e : Nat) (h : litChar c s k i = some e) :
    s.drop i = c :: s.drop (i + 1) ∧ k (i + 1) = some e := by
  rw [litChar] at h
  split at h
  next c2 hget =>
    split at h
    next hc =>
      subst hc
      exact ⟨drop_cons_of_get? hget, h⟩
    next hc => cases h
  next hget => cases h

lemma matchEmailAt_sound (s : List Char) (i e : Nat)
    (h : matchEmailAt s i = some e) :
    ∃ pfx, s.drop i = pfx ++ s.drop e ∧ i + pfx.length = e ∧ emailShape pfx := by
  rw [matchEmailAt] at h
  obtain ⟨j1, a, hane, haall, hdropa, hlena, hk1⟩ := plusGreedy_sound _ _ _ _ _ h
  obtain ⟨hdropAt, hk2⟩ := litChar_sound _ _ _ _ _ hk1
  obtain ⟨j2, b, hbne, hball, hdropb, hlenb, hk3⟩ := plusGreedy_sound _ _ _ _ _ hk2
  obtain ⟨hdropDot, hk4⟩ := litChar_sound _ _ _ _ _ hk3
  obtain ⟨j3, c, hcne, hcall, hdropc, hlenc, hk5⟩ := plusGreedy_sound _ _ _ _ _ hk4
  have hj3 : j3 = e := by simpa using hk5
  subst hj3
  refine ⟨a ++ '@' :: (b ++ '.' :: c), ?_, ?_,
    a, b, c, rfl, hane, hbne, hcne, haall, hball, hcall⟩
  · rw [hdropa, hdropAt, hdropb, hdropDot, hdropc]
    simp [List.append_assoc]
  · simp only [List.length_append, List.length_cons]
    omega

lemma searchFrom_sound (s : List Char) :
    ∀ fuel i0 i j, searchFrom s fuel i0 = some (i, j) →
      matchEmailAt s i = some j ∧ i0 ≤ i ∧
        ∀ m, i0 ≤ m → m < i → matchEmailAt s m = none := by
  intro fuel
  induction fuel with
  | zero => intro i0 i j h; cases h
  | succ fuel ih =>
    intro i0 i j h
    rw [searchFrom] at h
    split at h
    next j2 hm =>
      obtain ⟨h3, h4⟩ : i0 = i ∧ j2 = j := by simpa using h
      subst h3; subst h4
      exact ⟨hm, le_refl _, fun m h5 h6 => by omega⟩
    next hm =>
      obtain ⟨h1, h2, h3⟩ := ih (i0 + 1) i j h
      refine ⟨h1, by omega, fun m hm1 hm2 => ?_⟩
      rcases Nat.eq_or_lt_of_le hm1 with he | hlt
      · rw [← he]; exact hm
      · exact h3 m hlt hm2

lemma manyGreedy_k_ne_none (p : Char → Bool) (s : List Char) (k : Nat → Option Nat) :
    ∀ fuel i, k i ≠ none → manyGreedy p s k fuel i ≠ none := by
  intro fuel
  induction fuel with
  | zero => intro i h; exact h
  | succ fuel ih =>
    intro i h
    rw [manyGreedy]
    cases hget : s.get? i with
    | none => simpa using h
    | some c =>
      dsimp only []
      by_cases hp : p c = true
      · rw [if_pos hp]
        cases hrec : manyGreedy p s k fuel (i + 1) with
        | some e => simp
        | none => simpa using h
      · rw [if_neg hp]; exact h

lemma manyGreedy_complete (p : Char → Bool) (s : List Char) (k : Nat → Option Nat) :
    ∀ (l : List Char) (fuel i j : Nat), s.drop i = l ++ s.drop j →
      i + l.length = j → (∀ x ∈ l, p x = true) → k j ≠ none →
      l.length ≤ fuel → manyGreedy p s k fuel i ≠ none := by
  intro l
  induction l with
  | nil =>
    intro fuel i j hdrop hlen hall hk _
    have hj : j = i := by simpa using hlen.symm
    subst hj
    exact manyGreedy_k_ne_none p s k fuel _ hk
  | cons x t ih =>
    intro fuel i j hdrop hlen hall hk hfuel
    cases fuel with
    | zero => simp at hfuel
    | succ fuel =>
      have hget : s.get? i = some x := get?_of_drop_cons (by simpa using hdrop)
      have hdrop1 : s.drop (i + 1) = t ++ s.drop j :=
        drop_succ_of_drop_cons (by simpa using hdrop)
      rw [manyGreedy, hget]
      dsimp only []
      rw [if_pos (hall x (by simp))]
      cases hrec : manyGreedy p s k fuel (i + 1) with
      | some e => simp
      | none =>
        exact absurd hrec (ih fuel (i + 1) j hdrop1
          (by simp only [List.length_cons] at hlen; omega)
          (fun y hy => hall y (by simp [hy])) hk
          (by simp only [List.length_cons] at hfuel; omega))

lemma plusGreedy_complete (p : Char → Bool) (s : List Char) (k : Nat → Option Nat)
    (i j : Nat) (x : Char) (t : List Char)
    (hdrop : s.drop i = (x :: t) ++ s.drop j) (hlen : i + (x :: t).length = j)
    (hall : ∀ y ∈ x :: t, p y = true) (hk : k j ≠ none) :
    plusGreedy p s k i ≠ none := by
  have hget : s.get? i = some x := get?_of_drop_cons (by simpa using hdrop)
  have hdrop1 : s.drop (i + 1) = t ++ s.drop j :=
    drop_succ_of_drop_cons (by simpa using hdrop)
  rw [plusGreedy, hget]
  dsimp only []
  rw [if_pos (hall x (by simp))]
  have hlenle : t.length ≤ s.length := by
    have h2 : (t ++ s.drop j).length = (s.drop (i + 1)).length := by rw [hdrop1]
    simp only [List.length_append, List.length_drop] at h2
    omega
  exact manyGreedy_complete p s k t s.length (i + 1) j hdrop1
    (by simp only [List.length_cons] at hlen; omega)
    (fun y hy => hall y (by simp [hy])) hk hlenle

lemma litChar_eval (c : Char) (s : List Char) (k : Nat → Option Nat) (i : Nat)
    (hget : s.get? i = some c) : litChar c s k i = k (i + 1) := by
  rw [litChar, hget]
  dsimp only []
  rw [if_pos rfl]

lemma matchEmailAt_complete (s : List Char) (i : Nat) (a b c rest : List Char)
    (hdrop : s.drop i = (a ++ '@' :: (b ++ '.' :: c)) ++ rest)
    (ha : a ≠ []) (hb : b ≠ []) (hc : c ≠ [])
    (haall : ∀ x ∈ a, addrChar x = true)
    (hball : ∀ x ∈ b, addrChar x = true)
    (hcall : ∀ x ∈ c, wordChar x = true) :
    matchEmailAt s i ≠ none := by
  obtain ⟨a0, a1, rfl⟩ := List.exists_cons_of_ne_nil ha
  obtain ⟨b0, b1, rfl⟩ := List.exists_cons_of_ne_nil hb
  obtain ⟨c0, c1, rfl⟩ := List.exists_cons_of_ne_nil hc
  have hd : s.drop i =
      (a0 :: a1) ++ ('@' :: ((b0 :: b1) ++ ('.' :: ((c0 :: c1) ++ rest)))) := by
    rw [hdrop]; simp
  have hdJ1 : s.drop (i + (a0 :: a1).length) =
      '@' :: ((b0 :: b1) ++ ('.' :: ((c0 :: c1) ++ rest))) :=
    drop_of_drop_append hd
  have hdJ1s : s.drop (i + (a0 :: a1).length + 1) =
      (b0 :: b1) ++ ('.' :: ((c0 :: c1) ++ rest)) :=
    drop_succ_of_drop_cons hdJ1
  have hdJ2 : s.drop (i + (a0 :: a1).length + 1 + (b0 :: b1).length) =
      '.' :: ((c0 :: c1) ++ rest) :=
    drop_of_drop_append hdJ1s
  have hdJ2s : s.drop (i + (a0 :: a1).length + 1 + (b0 :: b1).length + 1) =
      (c0 :: c1) ++ rest :=
    drop_succ_of_drop_cons hdJ2
  have hdJ3 : s.drop
      (i + (a0 :: a1).length + 1 + (b0 :: b1).length + 1 + (c0 :: c1).length) =
      rest :=
    drop_of_drop_append hdJ2s
  rw [matchEmailAt]
  apply plusGreedy_complete addrChar s _ i (i + (a0 :: a1).length) a0 a1
    (by rw [hdJ1]; exact hd) rfl haall
  rw [litChar_eval '@' s _ _ (get?_of_drop_cons hdJ1)]
  apply plusGreedy_complete addrChar s _ _ (i + (a0 :: a1).length + 1 + (b0 :: b1).length)
    b0 b1 (by rw [hdJ2]; exact hdJ1s) rfl hball
  rw [litChar_eval '.' s _ _ (get?_of_drop_cons hdJ2)]
  apply plusGreedy_complete wordChar s _ _
    (i + (a0 :: a1).length + 1 + (b0 :: b1).length + 1 + (c0 :: c1).length)
    c0 c1 (by rw [hdJ3]; exact hdJ2s) rfl hcall
  simp

lemma searchFrom_none (s : List Char) :
    ∀ fuel i0, searchFrom s fuel i0 = none →
      ∀ m, i0 ≤ m → m < i0 + fuel → matchEmailAt s m = none := by
  intro fuel
  induction fuel with
  | zero => intro i0 h m h1 h2; omega
  | succ fuel ih =>
    intro i0 h m h1 h2
    rw [searchFrom] at h
    split at h
    next j hm => cases h
    next hm =>
      rcases Nat.eq_or_lt_of_le h1 with he | hlt
      · rw [← he]; exact hm
      · exact ih (i0 + 1) h m hlt (by omega)

/-- C10 (confirmed): `extract_email` is total and deterministic (a
function of its input); it returns `none` on `None` or empty input; on
success the result is a substring of the stringified input that
matches the email pattern, located at the leftmost position where any
match of the pattern starts ("the first substring that matches"); it
returns `none` when the input contains no matching substring; and
`'Name <a@b.com>'` yields `'a@b.com'`. -/
theorem C10_extract_email_spec :
    extract_email none = none ∧
    extract_email (some "") = none ∧
    extract_email (some "Name <a@b.com>") = some "a@b.com" ∧
    (∀ v r, extract_email (some v) = some r →
      ∃ pre post : List Char,
        v.toList = pre ++ (r.toList ++ post) ∧ emailShape r.toList ∧
        ∀ pre2 m post2 : List Char, v.toList = pre2 ++ (m ++ post2) →
          emailShape m → pre.length ≤ pre2.length) ∧
    (∀ v, extract_email (some v) = none →
      ∀ pre m post : List Char, v.toList = pre ++ (m ++ post) → ¬ emailShape m) := by
  refine ⟨rfl, by decide, by decide, ?_, ?_⟩
  · intro v r h
    rw [extract_email] at h
    split at h
    next hv => cases h
    next hv =>
      split at h
      next i j hs =>
        have hr2 : sliceStr v.toList i j = r := by simpa using h
        rw [searchEmail] at hs
        obtain ⟨hmatch, -, hmin⟩ :=
          searchFrom_sound v.toList (v.toList.length + 1) 0 i j hs
        obtain ⟨pfx, hdrop, hlen, hshape⟩ := matchEmailAt_sound v.toList i j hmatch
        have hrl : r.toList = pfx := by
          rw [← hr2]
          show ((v.toList.drop i).take (j - i)) = pfx
          rw [hdrop]
          have hji : j - i = pfx.length := by omega
          rw [hji]
          exact List.take_left pfx _
        have hpne : pfx ≠ [] := by
          obtain ⟨a, b, c, habc, -, -, -, -, -, -⟩ := hshape
          intro hnil
          rw [hnil] at habc
          exact absurd habc.symm (by simp)
        have hile : i ≤ v.toList.length := by
          by_contra hgt
          push_neg at hgt
          have hnil : v.toList.drop i = [] := List.drop_eq_nil_of_le (le_of_lt hgt)
          rw [hnil] at hdrop
          exact hpne (List.append_eq_nil.mp hdrop.symm).1
        refine ⟨v.toList.take i, v.toList.drop j, ?_, by rw [hrl]; exact hshape, ?_⟩
        · conv_lhs => rw [← List.take_append_drop i v.toList]
          rw [hdrop, hrl]
        · intro pre2 m post2 hdec hshape2
          by_contra hcon
          push_neg at hcon
          have htl : (v.toList.take i).length = i := by
            rw [List.length_take]
            exact min_eq_left hile
          rw [htl] at hcon
          have hm0 : matchEmailAt v.toList pre2.length = none :=
            hmin pre2.length (Nat.zero_le _) (by omega)
          obtain ⟨a, b, c, habc, hane, hbne, hcne, haall, hball, hcall⟩ := hshape2
          have hdrop2 : v.toList.drop pre2.length =
              (a ++ '@' :: (b ++ '.' :: c)) ++ post2 := by
            rw [hdec, List.drop_left, habc]
          exact matchEmailAt_complete v.toList pre2.length a b c post2 hdrop2
            hane hbne hcne haall hball hcall hm0
      next hs => cases h
  · intro v h pre m post hdec hshape
    rw [extract_email] at h
    split at h
    next hv =>
      obtain ⟨a, b, c, habc, hane, -, -, -, -, -⟩ := hshape
      subst hv
      have h2 : pre ++ (m ++ post) = ([] : List Char) := hdec.symm
      have h3 : m = [] := (List.append_eq_nil.mp (List.append_eq_nil.mp h2).2).1
      rw [h3] at habc
      exact absurd habc.symm (by simp)
    next hv =>
      split at h
      next i j hs => cases h
      next hs =>
        rw [searchEmail] at hs
        have hnone := searchFrom_none v.toList (v.toList.length + 1) 0 hs
        have hple : pre.length ≤ v.toList.length := by
          have h2 := congrArg List.length hdec
          simp only [List.length_append] at h2
          omega
        have hm0 : matchEmailAt v.toList pre.length = none :=
          hnone pre.length (Nat.zero_le _) (by omega)
        obtain ⟨a, b, c, habc, hane, hbne, hcne, haall, hball, hcall⟩ := hshape
        have hdrop2 : v.toList.drop pre.length =
            (a ++ '@' :: (b ++ '.' :: c)) ++ post := by
          rw [hdec, List.drop_left, habc]
        exact matchEmailAt_complete v.toList pre.length a b c post hdrop2
          hane hbne hcne haall hball hcall hm0

theorem C10_extract_email_spec_witness :
    ∃ pre post : List Char,
      ("Name <a@b.com>" : String).toList =
        pre ++ (("a@b.com" : String).toList ++ post) ∧
      emailShape ("a@b.com" : String).toList ∧
      ∀ pre2 m post2 : List Char,
        ("Name <a@b.com>" : String).toList = pre2 ++ (m ++ post2) →
        emailShape m → pre.length ≤ pre2.length :=
  C10_extract_email_spec.2.2.2.1 "Name <a@b.com>" "a@b.com" (by decide)

end Mailmir
